import Mathlib

/-!
# Reference-count and page-fragment helpers of `backport.h`

A shallow embedding of the inline helpers of `src/backport.h`
(`strscpy`, `timer_setup`, `refcount_read`, `refcount_dec_and_test`,
`skb_unref`, `page_ref_sub_and_test`, `__page_frag_cache_drain`) together
with the properties they satisfy.

The helpers forward to primitives of the host kernel (`atomic_read`,
`atomic_sub_and_test`, `strlcpy`, `add_timer`, `__free_pages`,
`compound_order`).  Those primitives are not part of the repository; they are
modelled here by their documented kernel contract, each in a definition whose
doc comment says so.

Machine integers: an `int` is an `Int` kept in `[-2^31, 2^31)` by `wrap32`,
an `unsigned int` is a `Nat` below `2^32`.
-/

namespace Backport

/-! ## Machine integers -/

/-- Two's-complement reduction of an integer to the range of a C `int`
(32 bits): the unique value in `[-2^31, 2^31)` congruent to `x` modulo `2^32`. -/
def wrap32 (x : Int) : Int := (x + 2147483648) % 4294967296 - 2147483648

/-- Conversion of an integer to C `unsigned int`: reduction modulo `2^32`. -/
def toU32 (x : Int) : Nat := (x % 4294967296).toNat

/-- The values a C `int` can hold. -/
def isInt32 (x : Int) : Prop := -2147483648 ≤ x ∧ x < 2147483648

instance (x : Int) : Decidable (isInt32 x) := by
  unfold isInt32; exact inferInstance

/-! ## Atomic counters (kernel primitives) -/

/-- The kernel type `atomic_t`: a structure around one `int counter`. -/
structure atomic_t where
  counter : Int
  deriving DecidableEq, Repr

/-- Kernel primitive `atomic_read(v)`: the current value of the counter. -/
def atomic_read (v : atomic_t) : Int := v.counter

/-- Kernel primitive `atomic_sub_and_test(i, v)`: one indivisible step that
subtracts `i` from `v` (in 32-bit two's-complement arithmetic) and returns
true exactly when the result is zero.  The pair is the returned boolean and
the counter after the call. -/
def atomic_sub_and_test (i : Int) (v : atomic_t) : Bool × atomic_t :=
  let n := wrap32 (v.counter - i)
  (decide (n = 0), { counter := n })

/-! ## `refcount_read`, `refcount_dec_and_test` (backport.h 72-97) -/

/-- Source `refcount_read`: `return atomic_read(r);` with the `int` converted
to the `unsigned int` return type. -/
def refcount_read (r : atomic_t) : Nat := toU32 (atomic_read r)

/-- Source `refcount_dec_and_test`: `return atomic_sub_and_test(1, r);`. -/
def refcount_dec_and_test (r : atomic_t) : Bool × atomic_t :=
  atomic_sub_and_test 1 r

/-! ## `skb_unref` (backport.h 99-118) -/

/-- The part of `struct sk_buff` the helpers touch: the `users` counter. -/
structure sk_buff where
  users : atomic_t
  deriving DecidableEq, Repr

/-- Source `skb_unref`.  A buffer pointer is an `Option`: `none` is `NULL`.
The pair is the returned boolean and the buffer after the call.
`smp_rmb()` is a read barrier and changes no state. -/
def skb_unref (skb : Option sk_buff) : Bool × Option sk_buff :=
  match skb with
  | none => (false, none)
  | some s =>
    if atomic_read s.users = 1 then
      (true, some s)
    else
      let r := refcount_dec_and_test s.users
      if !r.1 then (false, some { users := r.2 })
      else (true, some { users := r.2 })

/-- Runs `n` successive `skb_unref` calls on the same buffer: the booleans returned,
in call order, and the buffer after the last call. -/
def skb_unref_n : Nat → Option sk_buff → List Bool × Option sk_buff
  | 0, skb => ([], skb)
  | n + 1, skb =>
    let r := skb_unref skb
    let rest := skb_unref_n n r.2
    (r.1 :: rest.1, rest.2)

/-- The always-atomic release path the specification compares `skb_unref`
with: on a non-null buffer it unconditionally performs
`refcount_dec_and_test` on `users` and returns its result. -/
def skb_unref_always_atomic (skb : Option sk_buff) : Bool × Option sk_buff :=
  match skb with
  | none => (false, none)
  | some s =>
    let r := refcount_dec_and_test s.users
    (r.1, some { users := r.2 })

/-! ## Concurrent callers of `refcount_dec_and_test`

Each thread executes one call of `refcount_dec_and_test` on a shared counter
and keeps the returned boolean.  The call is the single indivisible step
`atomic_sub_and_test`, so an interleaving is the order in which the scheduler
lets the threads take that step. -/

/-- The shared counter and, per thread, the value its call returned
(`none`: the thread has not made its call yet). -/
structure dec_threads where
  r : atomic_t
  ret : List (Option Bool)
  deriving DecidableEq, Repr

/-- Initial state: `N` threads about to call, the counter initialised to `N`. -/
def dec_threads.init (N : Nat) : dec_threads :=
  { r := { counter := wrap32 N }, ret := List.replicate N none }

/-- The scheduler picks thread `i`.  A thread that has not called yet makes its
call; a finished (or non-existent) thread does nothing. -/
def dec_threads.step (s : dec_threads) (i : Nat) : dec_threads :=
  match s.ret[i]? with
  | some none =>
    let c := refcount_dec_and_test s.r
    { r := c.2, ret := s.ret.set i (some c.1) }
  | _ => s

/-- Run a schedule: the list of thread indices in the order they are picked. -/
def dec_threads.run (sched : List Nat) (s : dec_threads) : dec_threads :=
  sched.foldl dec_threads.step s

/-! ## `page_ref_sub_and_test`, `__page_frag_cache_drain` (backport.h 145-174) -/

/-- The part of `struct page` the helpers touch: the reference counter
`_count` and the compound order `compound_order` reads. -/
structure page where
  _count : atomic_t
  order : Nat
  deriving DecidableEq, Repr

/-- Kernel primitive `compound_order(page)`. -/
def compound_order (pg : page) : Nat := pg.order

/-- Kernel primitive `__free_pages(page, order)`, seen from the caller: the
call is appended to the trace of allocator calls. -/
def __free_pages (pg : page) (order : Nat) (calls : List (page × Nat)) :
    List (page × Nat) :=
  calls ++ [(pg, order)]

/-- Source `page_ref_sub_and_test`:
`return atomic_sub_and_test(nr, &page->_count);`, the boolean converted to the
`int` return type. -/
def page_ref_sub_and_test (pg : page) (nr : Int) : Int × page :=
  let r := atomic_sub_and_test nr pg._count
  (if r.1 then 1 else 0, { pg with _count := r.2 })

/-- Source `__page_frag_cache_drain`.  `count` is an `unsigned int`; passing it
to the `int nr` parameter converts it with `wrap32`.  The pair is the page and
the trace of `__free_pages` calls after the call. -/
def __page_frag_cache_drain (pg : page) (count : Nat) (calls : List (page × Nat)) :
    page × List (page × Nat) :=
  let r := page_ref_sub_and_test pg (wrap32 count)
  if r.1 ≠ 0 then
    let order := compound_order r.2
    (r.2, __free_pages r.2 order calls)
  else
    (r.2, calls)

/-! ## `timer_setup` (backport.h 49-70) -/

/-- The part of `struct timer_list` the helper touches.  `function` is the
address of the callback; `pending` says whether the timer is on the kernel's
timer queue. -/
structure timer_list where
  function : Nat
  expires : Nat
  pending : Bool
  deriving DecidableEq, Repr

/-- Kernel primitive `add_timer(timer)`: puts the timer on the timer queue, to
fire at `timer->expires`.  The pair is the timer and the queue after the call. -/
def add_timer (timer : timer_list) (queue : List timer_list) :
    timer_list × List timer_list :=
  let t := { timer with pending := true }
  (t, queue ++ [t])

set_option linter.unusedVariables false in
/-- Source `timer_setup`.  `jiffies` is the kernel's tick counter at the time
of the call, `queue` the kernel's timer queue; `flags` is not used. -/
def timer_setup (timer : timer_list) (func : Nat) (flags : Nat) (jiffies : Nat)
    (queue : List timer_list) : timer_list × List timer_list :=
  let t1 := { timer with function := func }
  let t2 := { t1 with expires := jiffies }
  add_timer t2 queue

/-! ## `strscpy` (backport.h 22-34) -/

/-- Kernel constant `E2BIG` (errno-base.h). -/
def E2BIG : Nat := 7

/-- Kernel primitive `strlcpy(dest, src, size)` (lib/string.c).  A C string is
the list of its characters before the terminating NUL.  Returns `strlen(src)`
and the string held by `dest` after the call: with `size` non-zero, the first
`len` characters of `src` followed by NUL, where `len` is `size - 1` when
`strlen(src) >= size` and `strlen(src)` otherwise; with `size` zero `dest` is
untouched. -/
def strlcpy (dest : List Char) (src : List Char) (size : Nat) : Nat × List Char :=
  let ret := src.length
  if size ≠ 0 then
    let len := if ret ≥ size then size - 1 else ret
    (ret, src.take len)
  else
    (ret, dest)

/-- Source `strscpy`: `return strlcpy(dest, src, size);` (return type
`size_t`). -/
def strscpy (dest : List Char) (src : List Char) (size : Nat) : Nat × List Char :=
  strlcpy dest src size

/-- The return value of the kernel's own `strscpy`, as the claim words it: the
number of characters copied when the source fits in `size` bytes (with its
NUL), `-E2BIG` when it does not. -/
def strscpy_kernel_return (src : List Char) (size : Nat) : Int :=
  if src.length < size then (src.length : Int) else -(E2BIG : Int)

/-! ## Basic facts about the machine integers -/

theorem wrap32_isInt32 (x : Int) : isInt32 (wrap32 x) := by
  unfold isInt32 wrap32; omega

theorem wrap32_congr (x : Int) : (wrap32 x - x) % 4294967296 = 0 := by
  unfold wrap32; omega

theorem wrap32_of_isInt32 (x : Int) (h : isInt32 x) : wrap32 x = x := by
  unfold isInt32 at h; unfold wrap32; omega

theorem toU32_eq_one (c : Int) (h : isInt32 c) : toU32 c = 1 ↔ c = 1 := by
  unfold isInt32 at h; unfold toU32; omega

theorem toU32_wrap32_pred (c : Int) (k : Nat) (h : toU32 c = k + 1) :
    toU32 (wrap32 (c - 1)) = k := by
  unfold toU32 at *; unfold wrap32; omega

theorem wrap32_dec_zero (k : Nat) (h1 : 0 < k) (h2 : k < 4294967296) :
    wrap32 (wrap32 (k : Int) - 1) = 0 ↔ k = 1 := by
  unfold wrap32; omega

theorem wrap32_dec (k : Nat) (h1 : 0 < k) :
    wrap32 (wrap32 (k : Int) - 1) = wrap32 ((k - 1 : Nat) : Int) := by
  unfold wrap32; omega

/-! ## Basic facts about `skb_unref` -/

theorem skb_unref_one (s : sk_buff) (h : s.users.counter = 1) :
    skb_unref (some s) = (true, some s) := by
  simp [skb_unref, atomic_read, h]

theorem skb_unref_ne_one (s : sk_buff) (hr : isInt32 s.users.counter)
    (h : s.users.counter ≠ 1) :
    skb_unref (some s) = (false, some { users := { counter := wrap32 (s.users.counter - 1) } }) := by
  have hz : wrap32 (s.users.counter - 1) ≠ 0 := by
    unfold isInt32 at hr; unfold wrap32; omega
  simp [skb_unref, atomic_read, h, refcount_dec_and_test, atomic_sub_and_test, hz]

theorem skb_unref_n_results (N : Nat) :
    ∀ s : sk_buff, isInt32 s.users.counter → refcount_read s.users = N + 1 →
      (skb_unref_n (N + 1) (some s)).1 = List.replicate N false ++ [true] := by
  induction N with
  | zero =>
    intro s hr hu
    have h1 : s.users.counter = 1 := (toU32_eq_one _ hr).1 hu
    simp [skb_unref_n, skb_unref_one s h1]
  | succ k ih =>
    intro s hr hu
    have hne : s.users.counter ≠ 1 := by
      intro h1
      have := (toU32_eq_one _ hr).2 h1
      unfold refcount_read atomic_read at hu
      omega
    have hstep := skb_unref_ne_one s hr hne
    have hnext := ih { users := { counter := wrap32 (s.users.counter - 1) } }
      (wrap32_isInt32 _) (toU32_wrap32_pred _ _ hu)
    rw [skb_unref_n, hstep]
    simp only [hnext]
    rfl

/-! ## Basic facts about the concurrent callers -/

theorem count_option_bool (l : List (Option Bool)) :
    l.count none + l.count (some true) + l.count (some false) = l.length := by
  induction l with
  | nil => rfl
  | cons a t ih =>
    rcases a with _ | _ | _ <;> simp [List.count_cons] <;> omega

theorem dec_threads_step_inv (N : Nat) (hN : N < 4294967296) (s : dec_threads) (i : Nat)
    (hlen : s.ret.length = N)
    (hctr : s.r.counter = wrap32 (s.ret.count none))
    (htrue : s.ret.count (some true) = if s.ret.count none = 0 then 1 else 0) :
    (s.step i).ret.length = N
    ∧ (s.step i).r.counter = wrap32 ((s.step i).ret.count none)
    ∧ (s.step i).ret.count (some true)
        = if (s.step i).ret.count none = 0 then 1 else 0 := by
  unfold dec_threads.step
  split
  · next heq =>
    obtain ⟨hi, hget⟩ := List.getElem?_eq_some.1 heq
    have hmem : (none : Option Bool) ∈ s.ret := by
      rw [← hget]; exact List.getElem_mem hi
    have hpos : 0 < s.ret.count none := List.count_pos_iff.2 hmem
    have hle : s.ret.count none ≤ N := by
      rw [← hlen]; exact List.count_le_length _ _
    have hlt : s.ret.count none < 4294967296 := Nat.lt_of_le_of_lt hle hN
    have hnone : (s.ret.set i (some (refcount_dec_and_test s.r).1)).count none
        = s.ret.count none - 1 := by
      rw [List.count_set _ _ _ _ hi, hget]; simp
    have htr : (s.ret.set i (some (refcount_dec_and_test s.r).1)).count (some true)
        = s.ret.count (some true) + if (refcount_dec_and_test s.r).1 then 1 else 0 := by
      rw [List.count_set _ _ _ _ hi, hget]
      cases (refcount_dec_and_test s.r).1 <;> simp
    have hb : (refcount_dec_and_test s.r).1 = decide (s.ret.count none = 1) := by
      simp only [refcount_dec_and_test, atomic_sub_and_test, hctr]
      exact decide_eq_decide.2 (wrap32_dec_zero _ hpos hlt)
    have hc : (refcount_dec_and_test s.r).2.counter = wrap32 ((s.ret.count none - 1 : Nat)) := by
      simp only [refcount_dec_and_test, atomic_sub_and_test, hctr]
      exact wrap32_dec _ hpos
    refine ⟨?_, ?_, ?_⟩
    · show (s.ret.set i (some (refcount_dec_and_test s.r).1)).length = N
      rw [List.length_set]; exact hlen
    · show (refcount_dec_and_test s.r).2.counter
        = wrap32 ((s.ret.set i (some (refcount_dec_and_test s.r).1)).count none : Nat)
      rw [hnone]; exact hc
    · show (s.ret.set i (some (refcount_dec_and_test s.r).1)).count (some true)
        = if (s.ret.set i (some (refcount_dec_and_test s.r).1)).count none = 0 then 1 else 0
      rw [hnone, htr, htrue, hb]
      by_cases h1 : s.ret.count none = 1
      · simp [h1]
      · have h0 : s.ret.count none ≠ 0 := by omega
        have h2 : s.ret.count none - 1 ≠ 0 := by omega
        simp [h1, h0, h2]
  · exact ⟨hlen, hctr, htrue⟩

theorem dec_threads_step_done (s : dec_threads) (i j : Nat)
    (h : s.ret[j]? ≠ some none) : (s.step i).ret[j]? ≠ some none := by
  unfold dec_threads.step
  split
  · next heq =>
    have hij : i ≠ j := by
      intro e; subst e; exact h heq
    simpa [List.getElem?_set_ne hij] using h
  · exact h

theorem dec_threads_step_self (s : dec_threads) (i : Nat) :
    (s.step i).ret[i]? ≠ some none := by
  unfold dec_threads.step
  split
  · next heq =>
    obtain ⟨hi, _⟩ := List.getElem?_eq_some.1 heq
    simp [List.getElem?_set_self hi]
  · next hne =>
    intro heq
    exact hne heq

theorem dec_threads_run_done (sched : List Nat) :
    ∀ (s : dec_threads) (j : Nat), (s.ret[j]? ≠ some none ∨ j ∈ sched) →
      (dec_threads.run sched s).ret[j]? ≠ some none := by
  induction sched with
  | nil =>
    intro s j h
    rcases h with h | h
    · exact h
    · cases h
  | cons i t ih =>
    intro s j h
    show (dec_threads.run t (s.step i)).ret[j]? ≠ some none
    apply ih
    rcases h with h | h
    · exact Or.inl (dec_threads_step_done s i j h)
    · rcases List.mem_cons.1 h with e | e
      · subst e; exact Or.inl (dec_threads_step_self s j)
      · exact Or.inr e

theorem dec_threads_run_inv (N : Nat) (hN : N < 4294967296) (sched : List Nat) :
    ∀ s : dec_threads, s.ret.length = N →
      s.r.counter = wrap32 (s.ret.count none) →
      (s.ret.count (some true) = if s.ret.count none = 0 then 1 else 0) →
      (dec_threads.run sched s).ret.length = N
      ∧ (dec_threads.run sched s).r.counter
          = wrap32 ((dec_threads.run sched s).ret.count none)
      ∧ (dec_threads.run sched s).ret.count (some true)
          = if (dec_threads.run sched s).ret.count none = 0 then 1 else 0 := by
  induction sched with
  | nil => intro s h1 h2 h3; exact ⟨h1, h2, h3⟩
  | cons i t ih =>
    intro s h1 h2 h3
    obtain ⟨g1, g2, g3⟩ := dec_threads_step_inv N hN s i h1 h2 h3
    exact ih (s.step i) g1 g2 g3

/-! ## Basic facts about `__page_frag_cache_drain` -/

theorem wrap32_sub_wrap32 (P : Int) (n : Nat) :
    wrap32 (P - wrap32 (n : Int)) = wrap32 (P - n) := by
  unfold wrap32; omega

theorem page_frag_cache_drain_eq (pg : page) (n : Nat) (calls : List (page × Nat)) :
    __page_frag_cache_drain pg n calls
      = if wrap32 (pg._count.counter - n) = 0 then
          ({ pg with _count := { counter := 0 } },
            calls ++ [({ pg with _count := { counter := 0 } }, pg.order)])
        else
          ({ pg with _count := { counter := wrap32 (pg._count.counter - n) } }, calls) := by
  unfold __page_frag_cache_drain page_ref_sub_and_test atomic_sub_and_test
    __free_pages compound_order
  simp only [wrap32_sub_wrap32]
  by_cases h : wrap32 (pg._count.counter - n) = 0
  · simp [h]
  · simp [h]

/-! ## Properties -/

/-- C1: for every counter value `c` of a 32-bit signed atomic,
`refcount_dec_and_test` leaves the counter at `c - 1` wrapped modulo `2^32`
(the value in the `int` range congruent to `c - 1`, equal to `c - 1` itself
unless `c` is `INT_MIN`), and returns true if and only if that post-decrement
value is `0`, which is the case if and only if `c = 1`. -/
theorem refcount_dec_and_test_spec (c : Int) (hc : isInt32 c) :
    (refcount_dec_and_test { counter := c }).2.counter = wrap32 (c - 1)
    ∧ isInt32 (refcount_dec_and_test { counter := c }).2.counter
    ∧ ((refcount_dec_and_test { counter := c }).2.counter - (c - 1)) % 4294967296 = 0
    ∧ (c ≠ -2147483648 → (refcount_dec_and_test { counter := c }).2.counter = c - 1)
    ∧ ((refcount_dec_and_test { counter := c }).1 = true
        ↔ (refcount_dec_and_test { counter := c }).2.counter = 0)
    ∧ ((refcount_dec_and_test { counter := c }).1 = true ↔ c = 1) := by
  unfold isInt32 at hc
  simp only [refcount_dec_and_test, atomic_sub_and_test, decide_eq_true_eq]
  refine ⟨trivial, wrap32_isInt32 _, wrap32_congr _, ?_, trivial, ?_⟩
  · intro h; unfold wrap32; omega
  · unfold wrap32; omega

theorem refcount_dec_and_test_spec_witness :
    isInt32 1 ∧ ((refcount_dec_and_test { counter := 1 }).1 = true ↔ (1 : Int) = 1) :=
  ⟨by decide, (refcount_dec_and_test_spec 1 (by decide)).2.2.2.2.2⟩

/-- C2: for every `N >= 1`, starting from a non-null buffer whose `users` count
is `N`, `N` successive `skb_unref` calls return false for each of the first
`N - 1` calls and true for the last one; the "can free" answer is given exactly
once, by the final call. -/
theorem skb_unref_n_spec (N : Nat) (s : sk_buff) (hN : 1 ≤ N)
    (hr : isInt32 s.users.counter) (hu : refcount_read s.users = N) :
    (skb_unref_n N (some s)).1 = List.replicate (N - 1) false ++ [true]
    ∧ (skb_unref_n N (some s)).1.length = N
    ∧ (skb_unref_n N (some s)).1.count true = 1 := by
  obtain ⟨k, rfl⟩ : ∃ k, N = k + 1 := ⟨N - 1, by omega⟩
  have h := skb_unref_n_results k s hr hu
  rw [h]
  simp [List.count_replicate]

theorem skb_unref_n_spec_witness :
    (skb_unref_n 3 (some { users := { counter := 3 } })).1 = [false, false, true] :=
  (skb_unref_n_spec 3 { users := { counter := 3 } } (by decide) (by decide) (by decide)).1

/-- C4: `skb_unref` returns false for a null buffer; for a non-null buffer it
returns true if and only if dropping this reference brings the count to zero
(`users - 1 = 0`), that is if and only if `users` was exactly `1` before the
call. -/
theorem skb_unref_spec (s : sk_buff) (hr : isInt32 s.users.counter) :
    (skb_unref none).1 = false
    ∧ ((skb_unref (some s)).1 = true ↔ atomic_read s.users - 1 = 0)
    ∧ ((skb_unref (some s)).1 = true ↔ atomic_read s.users = 1) := by
  refine ⟨rfl, ?_, ?_⟩
  · by_cases h : s.users.counter = 1
    · rw [skb_unref_one s h]; simp [atomic_read, h]
    · rw [skb_unref_ne_one s hr h]; simp only [atomic_read]; constructor
      · intro hf; cases hf
      · intro h0; omega
  · by_cases h : s.users.counter = 1
    · rw [skb_unref_one s h]; simp [atomic_read, h]
    · rw [skb_unref_ne_one s hr h]; simp [atomic_read, h]

theorem skb_unref_spec_witness :
    (skb_unref none).1 = false
    ∧ ((skb_unref (some { users := { counter := 2 } })).1 = true
        ↔ atomic_read ({ counter := 2 } : atomic_t) = 1) :=
  ⟨(skb_unref_spec { users := { counter := 2 } } (by decide)).1,
   (skb_unref_spec { users := { counter := 2 } } (by decide)).2.2⟩

/-- C3: for every `N >= 1` (a value the 32-bit counter can hold), when `N`
threads each call `refcount_dec_and_test` once on a counter initialised to
`N`, then under every interleaving, that is under every schedule that lets
each thread make its call, all `N` calls have returned, exactly one caller has
received true and the other `N - 1` callers have received false (and the
counter ends at `0`). -/
theorem refcount_dec_and_test_concurrent (N : Nat) (sched : List Nat)
    (hN : 1 ≤ N) (hN32 : N < 4294967296) (hall : ∀ i, i < N → i ∈ sched) :
    (dec_threads.run sched (dec_threads.init N)).ret.length = N
    ∧ (dec_threads.run sched (dec_threads.init N)).ret.count none = 0
    ∧ (dec_threads.run sched (dec_threads.init N)).ret.count (some true) = 1
    ∧ (dec_threads.run sched (dec_threads.init N)).ret.count (some false) = N - 1
    ∧ (dec_threads.run sched (dec_threads.init N)).r.counter = 0 := by
  have hinit0 : (dec_threads.init N).ret.count none = N := by
    simp [dec_threads.init]
  have hinit1 : (dec_threads.init N).ret.count (some true) = 0 := by
    simp [dec_threads.init, List.count_replicate]
  obtain ⟨g1, g2, g3⟩ := dec_threads_run_inv N hN32 sched (dec_threads.init N)
    (by simp [dec_threads.init]) (by rw [hinit0]; rfl)
    (by rw [hinit0, hinit1]; have : N ≠ 0 := by omega
        simp [this])
  have hdone : (dec_threads.run sched (dec_threads.init N)).ret.count none = 0 := by
    rw [List.count_eq_zero]
    intro hmem
    obtain ⟨j, hj⟩ := List.mem_iff_getElem?.1 hmem
    have hjN : j < N := by
      obtain ⟨hlt, _⟩ := List.getElem?_eq_some.1 hj
      omega
    exact dec_threads_run_done sched _ j (Or.inr (hall j hjN)) hj
  have hsum := count_option_bool (dec_threads.run sched (dec_threads.init N)).ret
  rw [hdone] at g2 g3
  simp only [if_true] at g3
  refine ⟨g1, hdone, g3, by omega, ?_⟩
  rw [g2]; rfl

theorem refcount_dec_and_test_concurrent_witness :
    (dec_threads.run [2, 0, 1] (dec_threads.init 3)).ret.count (some true) = 1
    ∧ (dec_threads.run [2, 0, 1] (dec_threads.init 3)).ret.count (some false) = 2 :=
  ⟨(refcount_dec_and_test_concurrent 3 [2, 0, 1] (by decide) (by decide)
      (by decide)).2.2.1,
   (refcount_dec_and_test_concurrent 3 [2, 0, 1] (by decide) (by decide)
      (by decide)).2.2.2.1⟩

/-- C5: for every page with reference count `P` and every drain count `n`
(an `unsigned int`), `__page_frag_cache_drain` lowers the page's reference
count to `P - n` (as a 32-bit `int`: the value in range congruent to `P - n`,
which is `P - n` itself whenever `P - n` does not fall below `INT_MIN`) and
frees the page, by a single `__free_pages` call with the page's compound
order, if and only if the resulting count is `0`.  In particular, draining
fewer references than are outstanding (`0 < n < P`) leaves the count at
`P - n` and frees nothing, and draining exactly the outstanding count
(`n = P`) frees the page exactly once. -/
theorem page_frag_cache_drain_spec (pg : page) (n : Nat) (calls : List (page × Nat))
    (hP : isInt32 pg._count.counter) (hn : n < 4294967296) :
    isInt32 (__page_frag_cache_drain pg n calls).1._count.counter
    ∧ ((__page_frag_cache_drain pg n calls).1._count.counter
        - (pg._count.counter - n)) % 4294967296 = 0
    ∧ (-2147483648 ≤ pg._count.counter - n →
        (__page_frag_cache_drain pg n calls).1._count.counter = pg._count.counter - n)
    ∧ ((__page_frag_cache_drain pg n calls).1._count.counter = 0 →
        (__page_frag_cache_drain pg n calls).2
          = calls ++ [((__page_frag_cache_drain pg n calls).1, compound_order pg)])
    ∧ ((__page_frag_cache_drain pg n calls).1._count.counter ≠ 0 →
        (__page_frag_cache_drain pg n calls).2 = calls)
    ∧ (0 < n → (n : Int) < pg._count.counter →
        (__page_frag_cache_drain pg n calls).2 = calls
        ∧ (__page_frag_cache_drain pg n calls).1._count.counter = pg._count.counter - n)
    ∧ ((n : Int) = pg._count.counter →
        (__page_frag_cache_drain pg n calls).2
          = calls ++ [({ pg with _count := { counter := 0 } }, compound_order pg)]) := by
  rw [page_frag_cache_drain_eq]
  unfold isInt32 at hP
  by_cases h : wrap32 (pg._count.counter - n) = 0
  · rw [if_pos h]
    unfold wrap32 at h
    refine ⟨?_, ?_, ?_, ?_, ?_, ?_, ?_⟩
    · show isInt32 0
      decide
    · show ((0 : Int) - (pg._count.counter - n)) % 4294967296 = 0
      omega
    · intro _
      show (0 : Int) = pg._count.counter - n
      omega
    · intro _; rfl
    · intro hne; exact absurd rfl hne
    · intro _ hlt; omega
    · intro _; rfl
  · have hPn : pg._count.counter ≠ n := by
      intro e; apply h; rw [e]; unfold wrap32; omega
    rw [if_neg h]
    refine ⟨wrap32_isInt32 _, wrap32_congr _, ?_, ?_, ?_, ?_, ?_⟩
    · intro hlow
      show wrap32 (pg._count.counter - n) = pg._count.counter - n
      unfold wrap32; omega
    · intro h0; exact absurd h0 h
    · intro _; rfl
    · intro _ hlt
      refine ⟨rfl, ?_⟩
      show wrap32 (pg._count.counter - n) = pg._count.counter - n
      unfold wrap32; omega
    · intro e; exact absurd e.symm hPn

theorem page_frag_cache_drain_spec_witness :
    (__page_frag_cache_drain { _count := { counter := 3 }, order := 2 } 2 []).2 = []
    ∧ (__page_frag_cache_drain { _count := { counter := 3 }, order := 2 } 2 []).1._count.counter
        = 3 - (2 : Nat) :=
  (page_frag_cache_drain_spec { _count := { counter := 3 }, order := 2 } 2 []
    (by decide) (by decide)).2.2.2.2.2.1 (by decide) (by decide)

/-- C6 (fails as stated): draining with `n = 0` a page whose reference count is
already `0` does call `__free_pages`, and a drain that frees the page followed
by a drain with count `0` frees it a second time. -/
theorem page_frag_cache_drain_zero_frees_again :
    (__page_frag_cache_drain { _count := { counter := 0 }, order := 0 } 0 []).2
      = [({ _count := { counter := 0 }, order := 0 }, 0)]
    ∧ (__page_frag_cache_drain
        (__page_frag_cache_drain { _count := { counter := 1 }, order := 0 } 1 []).1 0
        (__page_frag_cache_drain { _count := { counter := 1 }, order := 0 } 1 []).2).2.length
      = 2 := by
  decide

/-- C6 (amended): for every drain count `n2` with `1 <= n2 < 2^32`, calling
`__page_frag_cache_drain` on a page whose reference count is already `0` does
not call `__free_pages`; and two successive `__page_frag_cache_drain` calls on
the same page, the second with such a non-zero count, free it at most once. -/
theorem page_frag_cache_drain_no_double_free (pg : page) (n1 n2 : Nat)
    (calls : List (page × Nat)) (hn2 : 1 ≤ n2) (hn2u : n2 < 4294967296) :
    (pg._count.counter = 0 → (__page_frag_cache_drain pg n2 calls).2 = calls)
    ∧ (__page_frag_cache_drain (__page_frag_cache_drain pg n1 calls).1 n2
        (__page_frag_cache_drain pg n1 calls).2).2.length ≤ calls.length + 1 := by
  constructor
  · intro h0
    rw [page_frag_cache_drain_eq, h0]
    have hne : wrap32 ((0 : Int) - n2) ≠ 0 := by unfold wrap32; omega
    rw [if_neg hne]
  · rw [page_frag_cache_drain_eq pg n1 calls]
    by_cases h : wrap32 (pg._count.counter - n1) = 0
    · rw [if_pos h, page_frag_cache_drain_eq]
      have hne : wrap32 ((0 : Int) - n2) ≠ 0 := by unfold wrap32; omega
      split
      · next hz => exact absurd hz hne
      · simp
    · rw [if_neg h, page_frag_cache_drain_eq]
      split <;> simp

theorem page_frag_cache_drain_no_double_free_witness :
    (__page_frag_cache_drain
        (__page_frag_cache_drain { _count := { counter := 1 }, order := 0 } 1 []).1 1
        (__page_frag_cache_drain { _count := { counter := 1 }, order := 0 } 1 []).2).2.length
      ≤ ([] : List (page × Nat)).length + 1 :=
  (page_frag_cache_drain_no_double_free { _count := { counter := 1 }, order := 0 } 1 1 []
    (by decide) (by decide)).2

/-- C7 (the code at the failing input): on a counter that is `0`,
`refcount_dec_and_test` returns false and leaves the counter at `-1`; the
returned boolean and the counter are its only outputs, so no warning is
raised and the count is silently left negative. -/
theorem refcount_dec_and_test_underflow_silent :
    refcount_dec_and_test { counter := 0 } = (false, { counter := -1 }) := by
  decide

/-- C8 (the code at the failing input): `timer_setup` on an idle timer, with
an empty timer queue, sets the function and the expiry and also puts the timer
on the queue: the timer comes back pending. -/
theorem timer_setup_arms_timer :
    timer_setup { function := 0, expires := 0, pending := false } 7 0 100 []
      = ({ function := 7, expires := 100, pending := true },
         [{ function := 7, expires := 100, pending := true }]) := by
  decide

/-- C9 (fails as stated): with the three-character source `abc` and a
destination of size `2` the source does not fit; the wrapper returns `3`, which
is neither `-E2BIG` (as an integer or converted to a 64-bit `size_t`) nor at
most `size - 1`. -/
theorem strscpy_truncation_returns_length :
    (strscpy [] ['a', 'b', 'c'] 2).1 = 3
    ∧ strscpy_kernel_return ['a', 'b', 'c'] 2 = -7
    ∧ ((strscpy [] ['a', 'b', 'c'] 2).1 : Int) ≠ strscpy_kernel_return ['a', 'b', 'c'] 2
    ∧ (strscpy [] ['a', 'b', 'c'] 2).1 ≠ 18446744073709551616 - E2BIG
    ∧ ¬ (strscpy [] ['a', 'b', 'c'] 2).1 ≤ 2 - 1 := by
  decide

/-- C9 (amended): for every source string and every destination size `>= 1`
the `strscpy` wrapper returns the length of the source and leaves in `dest` at
most `size - 1` characters.  When the source fits (`strlen(src) < size`) the
whole source is copied and the return value is the number of characters
copied, as for the kernel's `strscpy`, and is at most `size - 1`.  When it does
not fit, `dest` holds the first `size - 1` characters and the return value is
the length of the source, which is at least `size`. -/
theorem strscpy_spec (dest src : List Char) (size : Nat) (hsize : 1 ≤ size) :
    (strscpy dest src size).1 = src.length
    ∧ (strscpy dest src size).2.length ≤ size - 1
    ∧ (src.length < size →
        (strscpy dest src size).2 = src
        ∧ (strscpy dest src size).1 = (strscpy dest src size).2.length
        ∧ ((strscpy dest src size).1 : Int) = strscpy_kernel_return src size
        ∧ (strscpy dest src size).1 ≤ size - 1)
    ∧ (size ≤ src.length →
        (strscpy dest src size).2 = src.take (size - 1)
        ∧ (strscpy dest src size).2.length = size - 1
        ∧ size ≤ (strscpy dest src size).1) := by
  have hs : size ≠ 0 := by omega
  by_cases h : src.length ≥ size
  · have e : strscpy dest src size = (src.length, src.take (size - 1)) := by
      simp [strscpy, strlcpy, hs, h]
    rw [e]
    refine ⟨rfl, ?_, ?_, ?_⟩
    · simp
    · intro hlt; omega
    · intro _
      refine ⟨rfl, ?_, h⟩
      simp only [List.length_take]; omega
  · have e : strscpy dest src size = (src.length, src) := by
      simp [strscpy, strlcpy, hs, h]
    rw [e]
    refine ⟨rfl, ?_, ?_, ?_⟩
    · show src.length ≤ size - 1
      omega
    · intro hlt
      refine ⟨rfl, rfl, ?_, ?_⟩
      · simp [strscpy_kernel_return, hlt]
      · show src.length ≤ size - 1
        omega
    · intro hge; omega

theorem strscpy_spec_witness :
    (strscpy [] ['a', 'b', 'c'] 2).1 = ['a', 'b', 'c'].length
    ∧ (strscpy [] ['a', 'b', 'c'] 2).2.length ≤ 2 - 1 :=
  ⟨(strscpy_spec [] ['a', 'b', 'c'] 2 (by decide)).1,
   (strscpy_spec [] ['a', 'b', 'c'] 2 (by decide)).2.1⟩

/-- C10 (fails as stated): on a buffer whose `users` count is `1` the fast path
and the always-atomic path return the same boolean but leave different counts:
`skb_unref` leaves `users` at `1`, the always-atomic path leaves it at `0`. -/
theorem skb_unref_fast_path_leaves_count :
    (skb_unref (some { users := { counter := 1 } })).1
      = (skb_unref_always_atomic (some { users := { counter := 1 } })).1
    ∧ (skb_unref (some { users := { counter := 1 } })).2.map
        (fun b => refcount_read b.users) = some 1
    ∧ (skb_unref_always_atomic (some { users := { counter := 1 } })).2.map
        (fun b => refcount_read b.users) = some 0
    ∧ (skb_unref (some { users := { counter := 1 } })).2.map
        (fun b => refcount_read b.users)
      ≠ (skb_unref_always_atomic (some { users := { counter := 1 } })).2.map
        (fun b => refcount_read b.users) := by
  decide

/-- C10 (amended): for every non-null buffer and every `users` count,
`skb_unref` returns the same boolean as the always-atomic path; when the count
is not `1` the two also leave the same `users` count (the whole result is the
same); when the count is `1`, `skb_unref` skips the atomic operation and leaves
`users` at `1`, where the always-atomic path leaves it at `0`. -/
theorem skb_unref_fast_path_spec (s : sk_buff) (hr : isInt32 s.users.counter) :
    (skb_unref (some s)).1 = (skb_unref_always_atomic (some s)).1
    ∧ (s.users.counter ≠ 1 →
        skb_unref (some s) = skb_unref_always_atomic (some s))
    ∧ (s.users.counter = 1 →
        (skb_unref (some s)).2.map (fun b => refcount_read b.users) = some 1
        ∧ (skb_unref_always_atomic (some s)).2.map
            (fun b => refcount_read b.users) = some 0) := by
  by_cases h : s.users.counter = 1
  · rw [skb_unref_one s h]
    have ha : skb_unref_always_atomic (some s) = (true, some { users := { counter := 0 } }) := by
      simp [skb_unref_always_atomic, refcount_dec_and_test, atomic_sub_and_test, h]
      decide
    rw [ha]
    refine ⟨rfl, fun hne => absurd h hne, fun _ => ⟨?_, by decide⟩⟩
    simp only [Option.map_some', refcount_read, atomic_read, h]
    decide
  · rw [skb_unref_ne_one s hr h]
    have hz : wrap32 (s.users.counter - 1) ≠ 0 := by
      unfold isInt32 at hr; unfold wrap32; omega
    have ha : skb_unref_always_atomic (some s)
        = (false, some { users := { counter := wrap32 (s.users.counter - 1) } }) := by
      simp [skb_unref_always_atomic, refcount_dec_and_test, atomic_sub_and_test, hz]
    rw [ha]
    exact ⟨rfl, fun _ => rfl, fun h1 => absurd h1 h⟩

theorem skb_unref_fast_path_spec_witness :
    (skb_unref (some { users := { counter := 2 } })).1
      = (skb_unref_always_atomic (some { users := { counter := 2 } })).1
    ∧ skb_unref (some { users := { counter := 2 } })
      = skb_unref_always_atomic (some { users := { counter := 2 } }) :=
  ⟨(skb_unref_fast_path_spec { users := { counter := 2 } } (by decide)).1,
   (skb_unref_fast_path_spec { users := { counter := 2 } } (by decide)).2.1 (by decide)⟩

end Backport
